import Mathlib

/-!
Shallow embedding of `src/energy_profiler.py` (a layer-wise energy profiler:
a background power-sampling thread plus a timed workload loop, aggregated by
window filtering and rectangle-rule integration) together with theorems that
settle the specification claims about it.

Numeric values (timestamps, watts, joules, seconds) are modelled as `ℚ`.
-/

/-- Configuration constant `NUM_REPEATS = 100` (line 12). -/
def NUM_REPEATS : ℕ := 100

/-- Configuration constant `POLL_INTERVAL = 0.02` (line 13). -/
def POLL_INTERVAL : ℚ := 1 / 50

/-- The warmup loop in `run_layer` performs `range(5)` repetitions (line 38). -/
def WARMUP_COUNT : ℕ := 5

/-- A `(timestamp, watts)` pair as put on `power_q` by `power_logger` (line 26). -/
structure PowerSample where
  timestamp : ℚ
  watts : ℚ
deriving DecidableEq, Repr

/-- The window test on line 54: `start <= t <= end`, inclusive on both ends. -/
def inWindow (tStart tEnd : ℚ) (s : PowerSample) : Bool :=
  decide (tStart ≤ s.timestamp) && decide (s.timestamp ≤ tEnd)

/-- Lines 51-55 of `run_layer`: drain the FIFO queue, keep the watt value `p` of
each pair whose timestamp passes the window test, in enqueue order. -/
def selectedWatts (tStart tEnd : ℚ) (buf : List PowerSample) : List ℚ :=
  (buf.filter (inWindow tStart tEnd)).map PowerSample.watts

/-- Line 56: `energy = sum(samples) * POLL_INTERVAL`. -/
def energyJoules (watts : List ℚ) : ℚ :=
  watts.sum * POLL_INTERVAL

/-- Line 57: `avg_power = energy / duration if duration > 0 else 0`. -/
def avgPower (energy duration : ℚ) : ℚ :=
  if 0 < duration then energy / duration else 0

/-- Lines 50-59 of `run_layer`: given the recorded window `[tStart, tEnd]` and the
drained buffer, return `(duration, energy, avg_power, samples)`. -/
def runLayerResult (tStart tEnd : ℚ) (buf : List PowerSample) :
    ℚ × ℚ × ℚ × List ℚ :=
  let duration := tEnd - tStart
  let samples := selectedWatts tStart tEnd buf
  let energy := energyJoules samples
  (duration, energy, avgPower energy duration, samples)

/-- Environment resolving the non-determinism of one `run_layer` call: whether
`jtop()` opens, what `jetson.stats` yields on each poll (`none` models a stats
dict with no `"Power TOT"` key), the monotonic timestamp of each poll, how many
loop iterations the sampler completes before observing the stop event, the two
monotonic clock reads of the main thread, and whether the layer raises during
the warmup or timed loop. -/
structure RunEnv where
  openOk : Bool
  readings : ℕ → Option ℚ
  sampleTime : ℕ → ℚ
  iters : ℕ
  startT : ℚ
  endT : ℚ
  raises : Bool

/-- One iteration of `power_logger` (lines 23-26): `stats.get("Power TOT", 0)`,
milliwatts to watts, stamped with the monotonic clock. A missing reading is
replaced by the default `0`, not skipped. -/
def sampleAt (env : RunEnv) (i : ℕ) : PowerSample :=
  ⟨env.sampleTime i, (env.readings i).getD 0 / 1000⟩

/-- The samples `power_logger` appends to `power_q` over a whole session: one per
completed loop iteration, in order. If `with jtop()` fails to open, the thread
dies before its loop and appends nothing (the exception stays in the thread). -/
def loggerSamples (env : RunEnv) : List PowerSample :=
  if env.openOk then (List.range env.iters).map (sampleAt env) else []

/-- `run_layer` (lines 30-59): `none` models the layer raising during warmup or
the timed loop — the exception propagates and lines 47-59 never run (note there
is no `try/finally`: the stop event is never set on this path). Otherwise the
recorded window and drained buffer are aggregated. -/
def run_layer (env : RunEnv) : Option (ℚ × ℚ × ℚ × List ℚ) :=
  if env.raises then none
  else some (runLayerResult env.startT env.endT (loggerSamples env))

/-- The aggregation a measured layer contributes (same as `run_layer` on the
non-raising path). -/
def layerResult (env : RunEnv) : ℚ × ℚ × ℚ × List ℚ :=
  runLayerResult env.startT env.endT (loggerSamples env)

/-- One entry of the profiling loop (lines 82-95): whether `layer_inputs` holds a
captured input for the layer, and the layer's `run_layer` environment. -/
structure LayerSpec where
  hasInput : Bool
  env : RunEnv

/-- The layer profiling loop (lines 82-95): skip a layer with no captured input;
call `run_layer` inside `try`, and on success accumulate the result and the
totals; on an exception print `[FAIL]` and continue with the next layer.
Returns `(results, total_energy, total_duration)`. -/
def profileLayers : List LayerSpec → List (ℚ × ℚ × ℚ × List ℚ) × ℚ × ℚ
  | [] => ([], 0, 0)
  | l :: rest =>
    if l.hasInput then
      match run_layer l.env with
      | some r =>
        let acc := profileLayers rest
        (r :: acc.1, r.2.1 + acc.2.1, r.1 + acc.2.2)
      | none => profileLayers rest
    else profileLayers rest

/-- A layer is measured (contributes a result) iff it has a captured input and
its execution does not raise. -/
def measured (l : LayerSpec) : Bool :=
  l.hasInput && !l.env.raises

/-- The layers the claimed length formula counts as permanently failed: those
whose execution raises. -/
def permanentlyFailed (ls : List LayerSpec) : List LayerSpec :=
  ls.filter fun l => l.hasInput && l.env.raises

/-- Program counter of the `power_logger` thread: about to test the stop event
(line 22), inside a loop body (lines 23-27), or terminated. -/
inductive LoggerPC
  | check
  | work
  | done
deriving DecidableEq, Repr

/-- Shared state of one sampler session: the `threading.Event` stop flag, the
logger thread's program counter, the number of completed loop iterations, the
FIFO contents of `power_q`, and whether `power_thread.join()` has returned. -/
structure SessState where
  stopFlag : Bool
  pc : LoggerPC
  iter : ℕ
  queue : List PowerSample
  joined : Bool
deriving DecidableEq, Repr

/-- Interleaved small-step semantics of one sampler session. The logger thread
tests the stop event once per iteration (line 22) and either exits or runs one
body — read, stamp, append, sleep (lines 23-27) — while the main thread may set
the stop event (line 47) at any time and can complete `join()` (line 48) only
once the logger thread has terminated. -/
inductive SessStep (env : RunEnv) : SessState → SessState → Prop
  | exitLoop (s : SessState) (hpc : s.pc = LoggerPC.check) (hf : s.stopFlag = true) :
      SessStep env s { s with pc := LoggerPC.done }
  | enterBody (s : SessState) (hpc : s.pc = LoggerPC.check) (hf : s.stopFlag = false) :
      SessStep env s { s with pc := LoggerPC.work }
  | appendSample (s : SessState) (hpc : s.pc = LoggerPC.work) :
      SessStep env s
        { s with
          pc := LoggerPC.check
          iter := s.iter + 1
          queue := s.queue ++ [sampleAt env s.iter] }
  | signalStop (s : SessState) :
      SessStep env s { s with stopFlag := true }
  | joinDone (s : SessState) (hpc : s.pc = LoggerPC.done) :
      SessStep env s { s with joined := true }

/-- State right after `power_thread.start()` (line 34): empty queue, stop event
clear, nothing joined. When `with jtop()` cannot open, the thread dies before
its first iteration, which a `join()` still observes as termination. -/
def initSess (env : RunEnv) : SessState :=
  { stopFlag := false
    pc := if env.openOk then LoggerPC.check else LoggerPC.done
    iter := 0
    queue := []
    joined := false }

/-- States a sampler session can reach from its start under any interleaving. -/
inductive SessReachable (env : RunEnv) : SessState → Prop
  | init : SessReachable env (initSess env)
  | step {s t : SessState} :
      SessReachable env s → SessStep env s t → SessReachable env t

/-- The drain loop (lines 52-53): pop every queued pair in FIFO order, leaving
the queue empty. -/
def drainAll (s : SessState) : List PowerSample × SessState :=
  (s.queue, { s with queue := [] })

/-- In every reachable session state the queue holds exactly the samples of the
completed iterations, in enqueue order. -/
theorem sess_queue_inv (env : RunEnv) :
    ∀ s, SessReachable env s → s.queue = (List.range s.iter).map (sampleAt env) := by
  intro s h
  induction h with
  | init => simp [initSess]
  | step hr hst ih =>
    cases hst with
    | exitLoop hpc hf => simpa using ih
    | enterBody hpc hf => simpa using ih
    | appendSample hpc => simp [ih, List.range_succ]
    | signalStop => simpa using ih
    | joinDone hpc => simpa using ih

/-- `join()` can only have returned once the logger thread has terminated. -/
theorem sess_joined_done (env : RunEnv) :
    ∀ s, SessReachable env s → s.joined = true → s.pc = LoggerPC.done := by
  intro s h
  induction h with
  | init => intro hj; simp [initSess] at hj
  | step hr hst ih =>
    cases hst with
    | exitLoop hpc hf => intro _; rfl
    | enterBody hpc hf =>
      intro hj
      have hd := ih hj
      rw [hpc] at hd
      simp at hd
    | appendSample hpc =>
      intro hj
      have hd := ih hj
      rw [hpc] at hd
      simp at hd
    | signalStop => intro hj; exact ih hj
    | joinDone hpc => intro _; exact hpc

/-- A terminated logger thread never appends again: every step from a state
whose thread is done leaves the queue (and iteration count) unchanged. -/
theorem sess_done_queue_stable (env : RunEnv) {s t : SessState}
    (hd : s.pc = LoggerPC.done) (hst : SessStep env s t) :
    t.queue = s.queue ∧ t.iter = s.iter := by
  cases hst with
  | exitLoop hpc hf => exact ⟨rfl, rfl⟩
  | enterBody hpc hf => exact ⟨rfl, rfl⟩
  | appendSample hpc =>
    rw [hd] at hpc
    simp at hpc
  | signalStop => exact ⟨rfl, rfl⟩
  | joinDone hpc => exact ⟨rfl, rfl⟩

/-- Claim C2: in any reachable state where `join()` has returned, the logger
thread has terminated, draining returns exactly the samples appended during the
session (one per completed iteration, in enqueue order), and no step taken
after the join can append another sample — the stop/join pair is a full
barrier before the buffer is read. -/
theorem C2_stop_join_barrier (env : RunEnv) (s : SessState)
    (hr : SessReachable env s) (hj : s.joined = true) :
    s.pc = LoggerPC.done
    ∧ (drainAll s).1 = (List.range s.iter).map (sampleAt env)
    ∧ ∀ t, SessStep env s t → t.queue = s.queue := by
  have hd := sess_joined_done env s hr hj
  exact ⟨hd, sess_queue_inv env s hr,
    fun t hst => (sess_done_queue_stable env hd hst).1⟩

/-- Concrete environment for the C2 witness: the source opens, every poll reads
5000 mW, poll `i` is stamped at time `i`. -/
def envW : RunEnv :=
  ⟨true, fun _ => some 5000, fun i => (i : ℚ), 1, 0, 1, false⟩

/-- Concrete session state for the C2 witness: one completed iteration, stop
signalled, thread exited, join returned. -/
def sessW : SessState :=
  ⟨true, LoggerPC.done, 1, [sampleAt envW 0], true⟩

/-- Witness for C2: an explicit interleaving (enter body, append sample 0,
signal stop, exit loop, join) reaching `sessW`, at which the theorem applies. -/
theorem C2_witness :
    (drainAll sessW).1 = (List.range sessW.iter).map (sampleAt envW) := by
  have h0 : SessReachable envW ⟨false, LoggerPC.check, 0, [], false⟩ :=
    SessReachable.init
  have h1 : SessReachable envW ⟨false, LoggerPC.work, 0, [], false⟩ :=
    h0.step (SessStep.enterBody _ rfl rfl)
  have h2 : SessReachable envW ⟨false, LoggerPC.check, 1, [sampleAt envW 0], false⟩ :=
    h1.step (SessStep.appendSample _ rfl)
  have h3 : SessReachable envW ⟨true, LoggerPC.check, 1, [sampleAt envW 0], false⟩ :=
    h2.step (SessStep.signalStop _)
  have h4 : SessReachable envW ⟨true, LoggerPC.done, 1, [sampleAt envW 0], false⟩ :=
    h3.step (SessStep.exitLoop _ rfl rfl)
  have h5 : SessReachable envW sessW :=
    h4.step (SessStep.joinDone _ rfl)
  exact (C2_stop_join_barrier envW sessW h5 rfl).2.1

/-- Retiming the buffer without changing any sample's window membership leaves
the selected watt list unchanged: the filter looks only at membership, never at
the spacing between timestamps. -/
theorem selectedWatts_retime (tStart tEnd : ℚ) (f : ℚ → ℚ) :
    ∀ buf : List PowerSample,
      (∀ s ∈ buf,
        inWindow tStart tEnd ⟨f s.timestamp, s.watts⟩ = inWindow tStart tEnd s) →
      selectedWatts tStart tEnd (buf.map fun s => ⟨f s.timestamp, s.watts⟩) =
        selectedWatts tStart tEnd buf
  | [], _ => rfl
  | s :: t, h => by
    have hs := h s (List.mem_cons_self s t)
    have ht := selectedWatts_retime tStart tEnd f t
      fun x hx => h x (List.mem_cons_of_mem _ hx)
    simp only [selectedWatts, List.map_cons, List.filter_cons] at ht ⊢
    rw [hs]
    cases hw : inWindow tStart tEnd s <;> simp only [hw] at * <;> simpa using ht

/-- Claim C1: the reported energy is the configured polling interval times the
sum of the watts of exactly the buffered samples whose timestamp `t` satisfies
`start ≤ t ≤ end` (inclusive on both ends), the selected samples are kept in
enqueue order (an order-preserving filter of the buffer), and observed
inter-sample gaps play no role: any retiming of the buffer that preserves
window membership leaves the energy unchanged. -/
theorem C1_rectangle_rule_energy (tStart tEnd : ℚ) (buf : List PowerSample) :
    (runLayerResult tStart tEnd buf).2.1 =
        POLL_INTERVAL * ((runLayerResult tStart tEnd buf).2.2.2).sum
    ∧ (runLayerResult tStart tEnd buf).2.2.2 =
        (buf.filter fun s =>
          decide (tStart ≤ s.timestamp ∧ s.timestamp ≤ tEnd)).map PowerSample.watts
    ∧ ∀ f : ℚ → ℚ,
        (∀ s ∈ buf,
          ((tStart ≤ f s.timestamp ∧ f s.timestamp ≤ tEnd) ↔
            (tStart ≤ s.timestamp ∧ s.timestamp ≤ tEnd))) →
        (runLayerResult tStart tEnd (buf.map fun s => ⟨f s.timestamp, s.watts⟩)).2.1 =
          (runLayerResult tStart tEnd buf).2.1 := by
  refine ⟨by simp [runLayerResult, energyJoules, mul_comm], ?_, ?_⟩
  · have hw : inWindow tStart tEnd =
        fun s : PowerSample => decide (tStart ≤ s.timestamp ∧ s.timestamp ≤ tEnd) := by
      funext s
      simp [inWindow, Bool.decide_and]
    simp [runLayerResult, selectedWatts, hw]
  · intro f hf
    have hsel : selectedWatts tStart tEnd (buf.map fun s => ⟨f s.timestamp, s.watts⟩) =
        selectedWatts tStart tEnd buf := by
      refine selectedWatts_retime tStart tEnd f buf fun s hs => ?_
      simp only [inWindow, ← Bool.decide_and]
      exact decide_eq_decide.mpr (hf s hs)
    simp [runLayerResult, hsel]

/-- Witness for C1 at a concrete buffer (one in-window sample, one out-of-window
sample) and the membership-preserving retiming `t ↦ t * t`. -/
theorem C1_witness :
    (runLayerResult 0 1 [⟨0, 2⟩, ⟨2, 9⟩]).2.1 =
        POLL_INTERVAL * ((runLayerResult 0 1 [⟨0, 2⟩, ⟨2, 9⟩]).2.2.2).sum
    ∧ (runLayerResult 0 1 (([⟨0, 2⟩, ⟨2, 9⟩] : List PowerSample).map
          fun s => ⟨s.timestamp * s.timestamp, s.watts⟩)).2.1 =
        (runLayerResult 0 1 [⟨0, 2⟩, ⟨2, 9⟩]).2.1 := by
  obtain ⟨h1, h2, h3⟩ := C1_rectangle_rule_energy 0 1 [⟨0, 2⟩, ⟨2, 9⟩]
  refine ⟨h1, h3 (fun t => t * t) ?_⟩
  intro s hs
  fin_cases hs <;> norm_num

/-- Claim C6: `avg_power_watts` equals `energy_joules / duration_seconds`
whenever the duration is positive, and equals `0` when the duration is `0`. -/
theorem C6_avg_power_definition (tStart tEnd : ℚ) (buf : List PowerSample) :
    (0 < (runLayerResult tStart tEnd buf).1 →
      (runLayerResult tStart tEnd buf).2.2.1 =
        (runLayerResult tStart tEnd buf).2.1 / (runLayerResult tStart tEnd buf).1)
    ∧ ((runLayerResult tStart tEnd buf).1 = 0 →
      (runLayerResult tStart tEnd buf).2.2.1 = 0) := by
  constructor
  · intro h
    simp only [runLayerResult, avgPower] at h ⊢
    rw [if_pos h]
  · intro h
    simp only [runLayerResult, avgPower] at h ⊢
    rw [h]
    simp

/-- Witness for C6: a window of duration 1 (positive branch) and a window of
duration 0 (zero branch). -/
theorem C6_witness :
    (runLayerResult 0 1 []).2.2.1 =
        (runLayerResult 0 1 []).2.1 / (runLayerResult 0 1 []).1
    ∧ (runLayerResult 3 3 []).2.2.1 = 0 := by
  constructor
  · exact (C6_avg_power_definition 0 1 []).1 (by norm_num [runLayerResult])
  · exact (C6_avg_power_definition 3 3 []).2 (by norm_num [runLayerResult])

/-- Claim C7: when the window filter selects no samples, the energy is `0` and
the average power is `0`; the aggregation is a total function, so no exception
is possible. -/
theorem C7_empty_selection_zero (tStart tEnd : ℚ) (buf : List PowerSample)
    (h : selectedWatts tStart tEnd buf = []) :
    (runLayerResult tStart tEnd buf).2.1 = 0
    ∧ (runLayerResult tStart tEnd buf).2.2.1 = 0 := by
  have he : energyJoules (selectedWatts tStart tEnd buf) = 0 := by
    rw [h]
    simp [energyJoules]
  constructor
  · simpa [runLayerResult] using he
  · simp only [runLayerResult]
    rw [he]
    simp [avgPower, zero_div]

/-- Witness for C7: a buffer whose only sample lies after the window. -/
theorem C7_witness :
    (runLayerResult 0 1 [⟨5, 3⟩]).2.1 = 0
    ∧ (runLayerResult 0 1 [⟨5, 3⟩]).2.2.1 = 0 :=
  C7_empty_selection_zero 0 1 [⟨5, 3⟩] (by decide)

/-- Claim C10: for a zero-duration window whose selected samples have positive
total watts, the energy is positive while the average power is `0`, so
`avg_power_watts * duration_seconds = energy_joules` fails there — and only
there: for any positive-duration window the identity holds. -/
theorem C10_zero_duration_identity_breaks (tStart : ℚ) (buf : List PowerSample)
    (h : 0 < (selectedWatts tStart tStart buf).sum) :
    0 < (runLayerResult tStart tStart buf).2.1
    ∧ (runLayerResult tStart tStart buf).2.2.1 = 0
    ∧ (runLayerResult tStart tStart buf).2.2.1 * (runLayerResult tStart tStart buf).1 ≠
        (runLayerResult tStart tStart buf).2.1
    ∧ ∀ (s e : ℚ) (buf' : List PowerSample), s < e →
        (runLayerResult s e buf').2.2.1 * (runLayerResult s e buf').1 =
          (runLayerResult s e buf').2.1 := by
  have hpos : 0 < (runLayerResult tStart tStart buf).2.1 := by
    simp only [runLayerResult, energyJoules]
    exact mul_pos h (by norm_num [POLL_INTERVAL])
  have havg : (runLayerResult tStart tStart buf).2.2.1 = 0 := by
    simp [runLayerResult, avgPower]
  refine ⟨hpos, havg, ?_, ?_⟩
  · rw [havg]
    simpa using (ne_of_gt hpos).symm
  · intro s e buf' hlt
    have hd : (0 : ℚ) < e - s := sub_pos.mpr hlt
    simp only [runLayerResult, avgPower, if_pos hd]
    exact div_mul_cancel₀ _ (ne_of_gt hd)

/-- Witness for C10: window `[0, 0]` with a single boundary sample of 5 watts,
and the positive-duration identity at window `[0, 1]`. -/
theorem C10_witness :
    0 < (runLayerResult 0 0 [⟨0, 5⟩]).2.1
    ∧ (runLayerResult 0 0 [⟨0, 5⟩]).2.2.1 * (runLayerResult 0 0 [⟨0, 5⟩]).1 ≠
        (runLayerResult 0 0 [⟨0, 5⟩]).2.1
    ∧ (runLayerResult 0 1 []).2.2.1 * (runLayerResult 0 1 []).1 =
        (runLayerResult 0 1 []).2.1 := by
  obtain ⟨h1, h2, h3, h4⟩ := C10_zero_duration_identity_breaks 0 [⟨0, 5⟩]
    (by norm_num [selectedWatts, inWindow])
  exact ⟨h1, h3, h4 0 1 [] (by norm_num)⟩

/-- Environment in which the PowerSource device cannot be opened: `with jtop()`
raises inside the sampler thread; the layer itself executes normally. -/
def envNoSource : RunEnv :=
  ⟨false, fun _ => none, fun _ => 0, 3, 0, 1, false⟩

/-- A layer with a captured input whose sampler cannot open the PowerSource. -/
def layerNoSource : LayerSpec :=
  ⟨true, envNoSource⟩

/-- Claim C3 counterexample: when the PowerSource cannot be opened the run does
NOT fail — the exception dies inside the sampler thread, `run_layer` returns
normally with an empty sample list and zero energy, and the single unit of this
run still produces a result (result-set length 1, not 0). -/
theorem C3_counterexample :
    (profileLayers [layerNoSource]).1.length = 1
    ∧ run_layer envNoSource = some (1, 0, 0, []) := by
  constructor
  · norm_num [profileLayers, run_layer, runLayerResult, loggerSamples,
      layerNoSource, envNoSource]
  · norm_num [run_layer, runLayerResult, loggerSamples, selectedWatts,
      energyJoules, avgPower, envNoSource]

/-- Claim C3 (amended): if the PowerSource cannot be opened, the sampler thread
dies silently before appending any sample; the failure never reaches the main
thread, so the unit is still measured and yields a result with its real
duration, no samples, zero energy and zero average power. -/
theorem C3_amended_open_failure_is_silent (env : RunEnv)
    (hopen : env.openOk = false) (hraise : env.raises = false) :
    run_layer env = some (env.endT - env.startT, 0, 0, []) := by
  have hbuf : loggerSamples env = [] := by simp [loggerSamples, hopen]
  simp [run_layer, hraise, runLayerResult, hbuf, selectedWatts, energyJoules,
    avgPower, zero_div]

/-- Witness for the amended C3 at the concrete no-source environment. -/
theorem C3_amended_witness :
    run_layer envNoSource = some (envNoSource.endT - envNoSource.startT, 0, 0, []) :=
  C3_amended_open_failure_is_silent envNoSource rfl rfl

/-- An ordinary working environment (source opens, constant 5000 mW polls). -/
def envPlain : RunEnv :=
  ⟨true, fun _ => some 5000, fun i => (i : ℚ), 2, 0, 1, false⟩

/-- A layer for which the forward hook captured no input: the profiling loop
prints `[SKIP]` and `continue`s without calling `run_layer` (lines 85-87). -/
def layerNoInput : LayerSpec :=
  ⟨false, envPlain⟩

/-- Claim C5 counterexample: a run with one unit whose input was never captured
produces 0 results, yet no unit permanently failed, so the claimed length
formula `total units − permanently failed units` gives 1 ≠ 0. -/
theorem C5_counterexample :
    (profileLayers [layerNoInput]).1.length ≠
      [layerNoInput].length - (permanentlyFailed [layerNoInput]).length := by
  norm_num [profileLayers, layerNoInput, permanentlyFailed, envPlain]

/-- Every layer falls into exactly one of three classes: measured, permanently
failed, or skipped for lack of a captured input. -/
theorem measured_partition (units : List LayerSpec) :
    (units.filter measured).length + (permanentlyFailed units).length +
      (units.filter fun l => !l.hasInput).length = units.length := by
  induction units with
  | nil => simp [permanentlyFailed]
  | cons l rest ih =>
    by_cases hin : l.hasInput = true
    · by_cases hra : l.env.raises = true
      · simp [measured, permanentlyFailed, List.filter_cons, hin, hra] at ih ⊢
        omega
      · simp only [Bool.not_eq_true] at hra
        simp [measured, permanentlyFailed, List.filter_cons, hin, hra] at ih ⊢
        omega
    · simp only [Bool.not_eq_true] at hin
      simp [measured, permanentlyFailed, List.filter_cons, hin] at ih ⊢
      omega

/-- Claim C5 (amended): the result list consists of exactly the layers that
have a captured input and do not raise, in run order, each contributing its
`run_layer` aggregate; the run totals are the sums of the measured layers'
energies and durations, so a raising (or input-less) layer is excluded from the
totals and does not prevent any later layer from being measured; hence the
result-set length is the number of units minus the permanently failed units
minus the units with no captured input. -/
theorem C5_measured_layers_characterization (units : List LayerSpec) :
    (profileLayers units).1 = ((units.filter measured).map fun l => layerResult l.env)
    ∧ (profileLayers units).1.length =
        units.length - (permanentlyFailed units).length -
          (units.filter fun l => !l.hasInput).length
    ∧ (profileLayers units).2.1 =
        ((units.filter measured).map fun l => (layerResult l.env).2.1).sum
    ∧ (profileLayers units).2.2 =
        ((units.filter measured).map fun l => (layerResult l.env).1).sum := by
  have main : (profileLayers units).1 =
        ((units.filter measured).map fun l => layerResult l.env)
      ∧ (profileLayers units).2.1 =
        ((units.filter measured).map fun l => (layerResult l.env).2.1).sum
      ∧ (profileLayers units).2.2 =
        ((units.filter measured).map fun l => (layerResult l.env).1).sum := by
    induction units with
    | nil => simp [profileLayers]
    | cons l rest ih =>
      obtain ⟨ih1, ih3, ih4⟩ := ih
      by_cases hin : l.hasInput = true
      · by_cases hra : l.env.raises = true
        · simp [profileLayers, hin, run_layer, hra, measured,
            List.filter_cons, ih1, ih3, ih4]
        · simp only [Bool.not_eq_true] at hra
          simp [profileLayers, hin, run_layer, hra, measured,
            List.filter_cons, layerResult, ih1, ih3, ih4]
      · simp only [Bool.not_eq_true] at hin
        simp [profileLayers, hin, measured, List.filter_cons, ih1, ih3, ih4]
  have hpart := measured_partition units
  refine ⟨main.1, ?_, main.2.1, main.2.2⟩
  rw [main.1, List.length_map]
  omega

/-- An acquisition or release of the `jtop` PowerSource connection. -/
inductive ResEvent
  | acquire
  | release
deriving DecidableEq, Repr

/-- The connection events one layer of the profiling loop generates, in order.
A layer with no captured input never starts a sampler. Otherwise the thread
enters `with jtop()` (acquire). On the normal path `stop_event.set()` and
`join()` (lines 47-48) run, the loop exits, and leaving the `with` block
releases the connection. When the layer raises, the exception skips lines
47-59 (`run_layer` has no `try/finally`), the stop event is never set, the
loop never exits, and the connection is never released. -/
def unitEvents (l : LayerSpec) : List ResEvent :=
  if l.hasInput then
    if l.env.openOk then
      if l.env.raises then [ResEvent.acquire]
      else [ResEvent.acquire, ResEvent.release]
    else []
  else []

/-- The connection events of a whole run, in program order (sessions are
started strictly sequentially by the single foreground thread). -/
def runEvents (units : List LayerSpec) : List ResEvent :=
  (units.map unitEvents).flatten

/-- Number of simultaneous holders of the PowerSource connection after a
sequence of events. -/
def holders (evs : List ResEvent) : ℤ :=
  evs.foldl
    (fun n e =>
      match e with
      | ResEvent.acquire => n + 1
      | ResEvent.release => n - 1)
    0

/-- A layer with a captured input whose execution raises. -/
def layerRaising : LayerSpec :=
  ⟨true, ⟨true, fun _ => some 5000, fun i => (i : ℚ), 2, 0, 1, true⟩⟩

/-- A layer with a captured input that measures normally. -/
def layerNormal : LayerSpec :=
  ⟨true, ⟨true, fun _ => some 5000, fun i => (i : ℚ), 2, 0, 1, false⟩⟩

/-- Claim C9 fails on the code: after a unit raises, its sampler is never
stopped, so when the next unit's sampler starts, two samplers hold the
PowerSource connection simultaneously (the prefix of the run's event trace up
to the second acquisition has two outstanding holders); a run of normal units
never exceeds one holder. -/
theorem C9_two_holders_after_raise :
    holders ((runEvents [layerRaising, layerNormal]).take 2) = 2
    ∧ holders (runEvents [layerNormal]) = 0
    ∧ holders ((runEvents [layerNormal]).take 1) = 1 := by
  refine ⟨?_, ?_, ?_⟩ <;>
    simp [holders, runEvents, unitEvents, layerRaising, layerNormal]

/-- The main-thread events of `run_layer` in program order: starting the
sampler thread (line 34), one event per warmup repetition (lines 37-39), the
`start = time.monotonic()` read (line 41), one event per timed repetition
(lines 42-44), the `end = time.monotonic()` read (line 45), the stop signal
(line 47) and the join (line 48). -/
inductive MainEvent
  | startSampler
  | warmupExec (i : ℕ)
  | readStart
  | timedExec (i : ℕ)
  | readEnd
  | signalStop
  | joinSampler
deriving DecidableEq, Repr

/-- The straight-line body of `run_layer` as an event list, with `w` warmup and
`r` timed repetitions; in the source `w = WARMUP_COUNT` and `r = NUM_REPEATS`. -/
def mainTrace (w r : ℕ) : List MainEvent :=
  MainEvent.startSampler ::
    ((List.range w).map MainEvent.warmupExec
      ++ MainEvent.readStart ::
        ((List.range r).map MainEvent.timedExec
          ++ [MainEvent.readEnd, MainEvent.signalStop, MainEvent.joinSampler]))

/-- Position of the `start` clock read in `mainTrace`. -/
def startReadPos (w : ℕ) : ℕ := w + 1

/-- Position of the `end` clock read in `mainTrace`. -/
def endReadPos (w r : ℕ) : ℕ := w + r + 2

theorem mainTrace_warmup (w r i : ℕ) (h : i < w) :
    (mainTrace w r)[i + 1]? = some (MainEvent.warmupExec i) := by
  simp only [mainTrace, List.getElem?_cons_succ]
  rw [List.getElem?_append_left (by simpa using h)]
  simp [List.getElem?_range, h]

theorem mainTrace_readStart (w r : ℕ) :
    (mainTrace w r)[startReadPos w]? = some MainEvent.readStart := by
  simp only [mainTrace, startReadPos, List.getElem?_cons_succ]
  rw [List.getElem?_append_right (by simp)]
  simp

theorem mainTrace_timed (w r j : ℕ) (h : j < r) :
    (mainTrace w r)[startReadPos w + 1 + j]? = some (MainEvent.timedExec j) := by
  have harith : startReadPos w + 1 + j = (w + 1 + j) + 1 := by
    simp only [startReadPos]
    omega
  rw [harith]
  simp only [mainTrace, List.getElem?_cons_succ]
  rw [List.getElem?_append_right (by simp only [List.length_map, List.length_range]; omega)]
  have : w + 1 + j - ((List.range w).map MainEvent.warmupExec).length = j + 1 := by
    simp only [List.length_map, List.length_range]
    omega
  rw [this]
  simp only [List.getElem?_cons_succ]
  rw [List.getElem?_append_left (by simpa using h)]
  simp [List.getElem?_range, h]

theorem mainTrace_readEnd (w r : ℕ) :
    (mainTrace w r)[endReadPos w r]? = some MainEvent.readEnd := by
  have harith : endReadPos w r = (w + r + 1) + 1 := rfl
  rw [harith]
  simp only [mainTrace, List.getElem?_cons_succ]
  rw [List.getElem?_append_right (by simp only [List.length_map, List.length_range]; omega)]
  have : w + r + 1 - ((List.range w).map MainEvent.warmupExec).length = r + 1 := by
    simp only [List.length_map, List.length_range]
    omega
  rw [this]
  simp only [List.getElem?_cons_succ]
  rw [List.getElem?_append_right (by simp)]
  simp

/-- Claim C8: in `run_layer`, every warmup repetition occurs at a position
strictly before the `start` clock read, every timed repetition occurs strictly
between the `start` and `end` clock reads, and for any monotone (monotonic
non-decreasing) clock assigning a time to each event position, the recorded
`end` is at least the recorded `start`. -/
theorem C8_warmup_before_window (w r : ℕ) (clock : ℕ → ℚ) (hm : Monotone clock) :
    (mainTrace w r)[startReadPos w]? = some MainEvent.readStart
    ∧ (mainTrace w r)[endReadPos w r]? = some MainEvent.readEnd
    ∧ (∀ i, i < w →
        (mainTrace w r)[i + 1]? = some (MainEvent.warmupExec i) ∧ i + 1 < startReadPos w)
    ∧ (∀ j, j < r →
        (mainTrace w r)[startReadPos w + 1 + j]? = some (MainEvent.timedExec j)
          ∧ startReadPos w < startReadPos w + 1 + j
          ∧ startReadPos w + 1 + j < endReadPos w r)
    ∧ clock (startReadPos w) ≤ clock (endReadPos w r) := by
  refine ⟨mainTrace_readStart w r, mainTrace_readEnd w r, ?_, ?_, ?_⟩
  · intro i hi
    exact ⟨mainTrace_warmup w r i hi, by simp only [startReadPos]; omega⟩
  · intro j hj
    refine ⟨mainTrace_timed w r j hj, ?_, ?_⟩ <;> simp only [startReadPos, endReadPos] <;> omega
  · exact hm (by simp only [startReadPos, endReadPos]; omega)

/-- Witness for C8 at the source's configuration (5 warmups, `NUM_REPEATS`
timed repetitions) and the identity clock, which is monotone. -/
theorem C8_witness :
    (mainTrace WARMUP_COUNT NUM_REPEATS)[startReadPos WARMUP_COUNT]? =
        some MainEvent.readStart
    ∧ (mainTrace WARMUP_COUNT NUM_REPEATS)[endReadPos WARMUP_COUNT NUM_REPEATS]? =
        some MainEvent.readEnd
    ∧ (fun n => (n : ℚ)) (startReadPos WARMUP_COUNT) ≤
        (fun n => (n : ℚ)) (endReadPos WARMUP_COUNT NUM_REPEATS) := by
  obtain ⟨h1, h2, h3, h4, h5⟩ :=
    C8_warmup_before_window WARMUP_COUNT NUM_REPEATS (fun n => (n : ℚ))
      (fun a b hab => by simpa using Nat.cast_le.mpr hab)
  exact ⟨h1, h2, h5⟩

/-- Environment whose every poll finds no `"Power TOT"` key in `jetson.stats`
(the transient read-failure case), stamped at time 7. -/
def envFailedRead : RunEnv :=
  ⟨true, fun _ => none, fun _ => 7, 1, 0, 1, false⟩

/-- Claim C4 counterexample: on an iteration whose PowerSource read fails, the
loop does NOT skip the append — `stats.get("Power TOT", 0)` substitutes the
default `0`, so a `(timestamp, 0.0)` sample is appended to the buffer. With one
iteration and a failed read the buffer is `[(7, 0 W)]`, not empty. -/
theorem C4_counterexample :
    loggerSamples envFailedRead = [⟨7, 0⟩]
    ∧ loggerSamples envFailedRead ≠ [] := by
  have h : loggerSamples envFailedRead = [⟨7, 0⟩] := by
    norm_num [loggerSamples, sampleAt, envFailedRead, List.range_succ]
  exact ⟨h, by rw [h]; simp⟩

/-- Claim C4 (amended): a failed PowerSource read does not terminate the loop,
but neither is the iteration skipped: every iteration appends a sample, and an
iteration whose read fails appends one with the default value `0` watts — which
therefore adds `0` to the energy sum. -/
theorem C4_failed_read_appends_zero (env : RunEnv) (hopen : env.openOk = true) :
    (loggerSamples env).length = env.iters
    ∧ ∀ i, i < env.iters → env.readings i = none →
        (loggerSamples env)[i]? = some ⟨env.sampleTime i, 0⟩ := by
  have hls : loggerSamples env = (List.range env.iters).map (sampleAt env) := by
    simp [loggerSamples, hopen]
  constructor
  · rw [hls]
    simp
  · intro i hi hnone
    rw [hls]
    simp [List.getElem?_map, List.getElem?_range, hi, sampleAt, hnone]

/-- Witness for the amended C4 at the concrete all-reads-fail environment. -/
theorem C4_witness :
    (loggerSamples envFailedRead).length = envFailedRead.iters
    ∧ (loggerSamples envFailedRead)[0]? = some ⟨envFailedRead.sampleTime 0, 0⟩ :=
  ⟨(C4_failed_read_appends_zero envFailedRead rfl).1,
    (C4_failed_read_appends_zero envFailedRead rfl).2 0 (by norm_num [envFailedRead]) rfl⟩
